import Mathlib

/-!
Verification of the ExcelTrans comparison rule engine
(`backend/intelligence/rule_engine/`): a shallow embedding of the row
matcher (`row_matcher.py`), change detector (`change_detector.py`) and rule
executor (`rule_executor.py`), together with theorems settling the spec
claims about matching, rule evaluation and output construction.
-/

set_option maxHeartbeats 1600000

deriving instance DecidableEq for Except

namespace ExcelTrans

/-! ## Scalar value model

A record cell holds a scalar: null/absent (`None`), a string, an integer or
a date.  Python floats (including the NaN/Inf branches of `_normalize`) and
booleans are outside the modelled value universe; no claim depends on them.
-/

/-- A scalar cell value, as produced by the ingestion layer. -/
inductive Value where
  | vnone
  | vstr (s : String)
  | vint (n : Int)
  | vdate (y m d : Nat)
deriving DecidableEq

/-- Characters stripped by Python `str.strip()` (ASCII whitespace). -/
def isPySpace (c : Char) : Bool :=
  c = ' ' || c = '\t' || c = '\n' || c = '\r' || c = '\x0b' || c = '\x0c'

/-- Python `str.strip()` on the character list. -/
def pyStripChars (l : List Char) : List Char :=
  ((l.dropWhile isPySpace).reverse.dropWhile isPySpace).reverse

/-- Python `str.strip()`. -/
def pyStrip (s : String) : String :=
  ⟨pyStripChars s.data⟩

/-- Python `str.lower()` (ASCII model). -/
def pyLower (s : String) : String :=
  ⟨s.data.map Char.toLower⟩

/-- Zero-pad a numeral to two digits, as `strftime` does for `%m`/`%d`. -/
def pad2 (n : Nat) : String :=
  if n < 10 then "0" ++ toString n else toString n

/-- Zero-pad a year to four digits, as `strftime` does for `%Y`. -/
def pad4 (n : Nat) : String :=
  if n < 10 then "000" ++ toString n
  else if n < 100 then "00" ++ toString n
  else if n < 1000 then "0" ++ toString n
  else toString n

/-- `YYYY-MM-DD`, the rendering shared by `str(date)` and `strftime('%Y-%m-%d')`. -/
def isoDate (y m d : Nat) : String :=
  pad4 y ++ "-" ++ pad2 m ++ "-" ++ pad2 d

/-- Python `str(val)` on the modelled scalar universe. -/
def pyStr : Value → String
  | .vnone => "None"
  | .vstr s => s
  | .vint n => toString n
  | .vdate y m d => isoDate y m d

/-- Python truthiness of a scalar (`None`, `''` and `0` are falsy). -/
def pyFalsy : Value → Bool
  | .vnone => true
  | .vstr s => s = ""
  | .vint n => n = 0
  | .vdate _ _ _ => false

/-- Python `val or ''` as used in `change_detector.py`. -/
def orEmptyStr (v : Value) : Value :=
  if pyFalsy v then .vstr "" else v

/-! ## Records -/

/-- A record: a field-name → value mapping, modelled as an association list
(Python dict: insertion-ordered, unique keys). -/
abbrev Row := List (String × Value)

/-- Python `row.get(field)`: `None` when absent. -/
def rowGetV (r : Row) (f : String) : Value :=
  (List.lookup f r).getD .vnone

/-- Python `row.get(field, default)`. -/
def rowGetD (r : Row) (f : String) (d : Value) : Value :=
  (List.lookup f r).getD d

/-! ## Row matcher (`row_matcher.py`) -/

/-- One part of the composite key: `str(val).strip().lower() if val is not
None else ''`, on `val = row.get(field, '')`. -/
def keyPart (row : Row) (f : String) : String :=
  let val := rowGetD row f (.vstr "")
  match val with
  | .vnone => ""
  | v => pyLower (pyStrip (pyStr v))

/-- Python `'|'.join(parts)`. -/
def joinParts : List String → String
  | [] => ""
  | [p] => p
  | p :: q :: rest => p ++ "|" ++ joinParts (q :: rest)

/-- `make_key`: composite key string from a row (`row_matcher.py` lines 14-20). -/
def make_key (row : Row) (key_fields : List String) : String :=
  joinParts (key_fields.map (keyPart row))

/-- Loop body of `build_key_index`: first-occurrence index plus duplicate
count.  `i` is the position of the head of the remaining row list. -/
def buildKeyIndexAux (kf : List String) :
    List Row → Nat → List (String × Nat) → Nat → List (String × Nat) × Nat
  | [], _, index, dups => (index, dups)
  | r :: rest, i, index, dups =>
    let k := make_key r kf
    if (List.lookup k index).isSome then
      buildKeyIndexAux kf rest (i + 1) index (dups + 1)
    else
      buildKeyIndexAux kf rest (i + 1) (index ++ [(k, i)]) dups

/-- `build_key_index` (`row_matcher.py` lines 23-38): maps composite key to
first row index; duplicate keys are counted, later occurrences skipped. -/
def build_key_index (rows : List Row) (kf : List String) :
    List (String × Nat) × Nat :=
  buildKeyIndexAux kf rows 0 [] 0

/-- Result quadruple of the matchers:
(matched_pairs, only_in_a, only_in_b, warnings). -/
abbrev MatchResult := List (Nat × Nat) × List Nat × List Nat × List (String × Nat)

/-- `exact_match` (`row_matcher.py` lines 41-77).  Note the pairing loop
iterates over all of `rows_a` and looks keys up in `index_b` only; `index_a`
contributes nothing but its duplicate count. -/
def exact_match (rows_a rows_b : List Row) (kf : List String) : MatchResult :=
  let ib := build_key_index rows_b kf
  let ia := build_key_index rows_a kf
  let index_b := ib.1
  let dups_b := ib.2
  let dups_a := ia.2
  let warnings :=
    (if dups_a ≠ 0 then [("duplicate_keys_a", dups_a)] else []) ++
    (if dups_b ≠ 0 then [("duplicate_keys_b", dups_b)] else [])
  let matched_pairs :=
    rows_a.enum.filterMap fun p =>
      (List.lookup (make_key p.2 kf) index_b).map fun j => (p.1, j)
  let matchedA : List Nat := matched_pairs.map Prod.fst
  let matchedB : List Nat := matched_pairs.map Prod.snd
  let only_in_a := (List.range rows_a.length).filter fun i => !decide (i ∈ matchedA)
  let only_in_b := (List.range rows_b.length).filter fun j => !decide (j ∈ matchedB)
  (matched_pairs, only_in_a, only_in_b, warnings)

/-! ## Fuzzy matcher

`difflib.SequenceMatcher` is an external standard-library dependency; its
similarity score is modelled after the reference semantics the spec gives
for it (§4.2): `ratio = 2·M/T` with `M` the longest-common-subsequence
length and `T` the total length of both strings, `1` when both strings are
empty.  The engine-side code (`fuzzy_match`) is embedded from the source.
-/

/-- Inner loop of the LCS length: `lcsGo a f l` is the LCS length of
`a :: as` against `l`, where `f` computes the LCS of `as` against a list. -/
def lcsGo (a : Char) (f : List Char → Nat) : List Char → Nat
  | [] => 0
  | b :: bs => if a = b then 1 + f bs else max (f (b :: bs)) (lcsGo a f bs)

/-- Longest-common-subsequence length of two character lists. -/
def lcsLen : List Char → List Char → Nat
  | [] => fun _ => 0
  | a :: as => lcsGo a (lcsLen as)

/-- Similarity score of two strings: the spec reference semantics of
`difflib.SequenceMatcher(None, a, b).ratio()` as a rational in `[0, 1]`. -/
def similarityScore (a b : String) : ℚ :=
  let t := a.data.length + b.data.length
  if t = 0 then 1 else (2 * lcsLen a.data b.data : ℚ) / t

/-- `FUZZY_ROW_LIMIT` (`row_matcher.py` line 11). -/
def FUZZY_ROW_LIMIT : Nat := 2000

/-- Python dict assignment `d[k] = v`: replaces in place, or appends. -/
def dictSet (d : List (String × Nat)) (k : String) (v : Nat) :
    List (String × Nat) :=
  if (List.lookup k d).isSome then
    d.map fun p => if p.1 = k then (k, v) else p
  else
    d ++ [(k, v)]

/-- `keys_b_index = {key: j for j, key in enumerate(keys_b)}`: later
occurrences of a key overwrite earlier ones. -/
def keysBIndex (keys_b : List String) : List (String × Nat) :=
  keys_b.enum.foldl (fun d p => dictSet d p.2 p.1) []

/-- The fuzzy fallback scan: best B index strictly above the running best
score, skipping used indices; ties keep the earlier (lower) index. -/
def bestFuzzyCandidate (key_a : String) (keys_b : List String)
    (used : List Nat) (threshold : ℚ) : Option Nat :=
  let final := keys_b.enum.foldl
    (fun acc p =>
      if used.contains p.1 then acc
      else
        let score := similarityScore key_a p.2
        if score > acc.1 then (score, some p.1) else acc)
    ((threshold, none) : ℚ × Option Nat)
  final.2

/-- One step of the fuzzy pairing loop for A-row `i` with key `key_a`:
exact O(1) lookup first, fuzzy fallback second. -/
def fuzzyStep (keys_b : List String) (kbIndex : List (String × Nat))
    (threshold : ℚ) (acc : List (Nat × Nat) × List Nat) (i : Nat)
    (key_a : String) : List (Nat × Nat) × List Nat :=
  let pairs := acc.1
  let used := acc.2
  match List.lookup key_a kbIndex with
  | some j =>
    if !(used.contains j) then (pairs ++ [(i, j)], used ++ [j])
    else
      match bestFuzzyCandidate key_a keys_b used threshold with
      | some bj => (pairs ++ [(i, bj)], used ++ [bj])
      | none => (pairs, used)
  | none =>
    match bestFuzzyCandidate key_a keys_b used threshold with
    | some bj => (pairs ++ [(i, bj)], used ++ [bj])
    | none => (pairs, used)

/-- `fuzzy_match` (`row_matcher.py` lines 80-138): raises `ValueError` when
either side exceeds `FUZZY_ROW_LIMIT`; otherwise greedy first-best
matching.  The local `warnings` dict is created empty and never written. -/
def fuzzy_match (rows_a rows_b : List Row) (kf : List String)
    (threshold : ℚ) : Except String MatchResult :=
  if rows_a.length > FUZZY_ROW_LIMIT || rows_b.length > FUZZY_ROW_LIMIT then
    .error ("Fuzzy matching is limited to " ++ toString FUZZY_ROW_LIMIT ++
      " rows per file to prevent timeout (File A: " ++
      toString rows_a.length ++ " rows, File B: " ++
      toString rows_b.length ++
      " rows). Use exact matching for larger datasets.")
  else
    let warnings : List (String × Nat) := []
    let keys_a := rows_a.map fun r => make_key r kf
    let keys_b := rows_b.map fun r => make_key r kf
    let kbIndex := keysBIndex keys_b
    let res := keys_a.enum.foldl
      (fun acc p => fuzzyStep keys_b kbIndex threshold acc p.1 p.2)
      (([], []) : List (Nat × Nat) × List Nat)
    let matched_pairs := res.1
    let matchedA : List Nat := matched_pairs.map Prod.fst
    let matchedB : List Nat := matched_pairs.map Prod.snd
    let only_in_a := (List.range rows_a.length).filter fun i => !decide (i ∈ matchedA)
    let only_in_b := (List.range rows_b.length).filter fun j => !decide (j ∈ matchedB)
    .ok (matched_pairs, only_in_a, only_in_b, warnings)

/-! ## Change detector (`change_detector.py`) -/

/-- `_normalize` (`change_detector.py` lines 10-21) on the modelled value
universe: null → empty, date → `YYYY-MM-DD`, otherwise trimmed string.
(The float branches have no counterpart here: floats are unmodelled.) -/
def normalize : Value → String
  | .vnone => ""
  | .vdate y m d => isoDate y m d
  | v => pyStrip (pyStr v)

/-- `_is_empty` (`change_detector.py` lines 24-25). -/
def isEmptyV (v : Value) : Bool :=
  v = .vnone || pyStrip (pyStr v) = ""

/-- `fields_changed` (`change_detector.py` lines 28-36). -/
def fields_changed (row_a row_b : Row) (fields : List String) :
    List String :=
  fields.filter fun f => !(normalize (rowGetV row_a f) = normalize (rowGetV row_b f))

/-! ### Date parsing (`_parse_date`, `change_detector.py` lines 118-129)

`datetime.strptime` is standard-library code; it is modelled format by
format: `%d`/`%m` accept one or two digits within range, `%Y` exactly four
digits, `%b` a case-insensitive English month abbreviation, and the built
date must be calendar-valid (otherwise the format fails and the next one is
tried).
-/

/-- Split a character list on one separator character. -/
def splitOnChar (sep : Char) : List Char → List (List Char)
  | [] => [[]]
  | c :: rest =>
    let r := splitOnChar sep rest
    if c = sep then [] :: r
    else
      match r with
      | [] => [[c]]
      | p :: ps => (c :: p) :: ps

/-- All characters are ASCII digits and the list is nonempty. -/
def allDigits (l : List Char) : Bool :=
  !l.isEmpty && l.all Char.isDigit

/-- Numeric value of a digit list. -/
def digitsVal (l : List Char) : Nat :=
  l.foldl (fun acc c => acc * 10 + (c.toNat - 48)) 0

/-- `%d`: one or two digits, 1-31. -/
def pDay (l : List Char) : Option Nat :=
  if allDigits l && l.length ≤ 2 then
    let n := digitsVal l
    if 1 ≤ n && n ≤ 31 then some n else none
  else none

/-- `%m`: one or two digits, 1-12. -/
def pMonth (l : List Char) : Option Nat :=
  if allDigits l && l.length ≤ 2 then
    let n := digitsVal l
    if 1 ≤ n && n ≤ 12 then some n else none
  else none

/-- `%Y`: exactly four digits. -/
def pYear (l : List Char) : Option Nat :=
  if allDigits l && l.length = 4 then some (digitsVal l) else none

/-- `%b`: case-insensitive English month abbreviation. -/
def pMonthName (l : List Char) : Option Nat :=
  let s := String.mk (l.map Char.toLower)
  List.lookup s
    [("jan", 1), ("feb", 2), ("mar", 3), ("apr", 4), ("may", 5),
     ("jun", 6), ("jul", 7), ("aug", 8), ("sep", 9), ("oct", 10),
     ("nov", 11), ("dec", 12)]

/-- Gregorian leap year. -/
def isLeap (y : Nat) : Bool :=
  y % 4 = 0 && (y % 100 ≠ 0 || y % 400 = 0)

/-- Days in a month. -/
def daysInMonth (y m : Nat) : Nat :=
  if m = 2 then (if isLeap y then 29 else 28)
  else if m = 4 || m = 6 || m = 9 || m = 11 then 30
  else 31

/-- Calendar validity as enforced by the `datetime` constructor. -/
def validDMY (y m d : Nat) : Bool :=
  1 ≤ y && y ≤ 9999 && 1 ≤ m && m ≤ 12 && 1 ≤ d && d ≤ daysInMonth y m

/-- Try one three-component numeric format given its separator and the
projections for each component; returns `(y, m, d)`. -/
def tryYMD (parts : List (List Char))
    (p1 p2 p3 : List Char → Option Nat)
    (mk : Nat → Nat → Nat → Nat × Nat × Nat) : Option (Nat × Nat × Nat) :=
  match parts with
  | [a, b, c] =>
    match p1 a, p2 b, p3 c with
    | some x, some y, some z =>
      let t := mk x y z
      if validDMY t.1 t.2.1 t.2.2 then some t else none
    | _, _, _ => none
  | _ => none

/-- The five formats of `_parse_date`, tried in source order. -/
def tryFormats (l : List Char) : Option (Nat × Nat × Nat) :=
  let slash := splitOnChar '/' l
  let dash := splitOnChar '-' l
  let spaceParts := (splitOnChar ' ' l).filter fun p => !p.isEmpty
  (tryYMD slash pDay pMonth pYear fun d m y => (y, m, d)).orElse fun _ =>
  (tryYMD dash pYear pMonth pDay fun y m d => (y, m, d)).orElse fun _ =>
  (tryYMD dash pDay pMonth pYear fun d m y => (y, m, d)).orElse fun _ =>
  (tryYMD slash pMonth pDay pYear fun m d y => (y, m, d)).orElse fun _ =>
  tryYMD spaceParts pDay pMonthName pYear fun d m y => (y, m, d)

/-- `_parse_date` on the modelled value universe: datetime/date pass
through, nonblank strings go through the format list, everything else is
unparsable. -/
def parse_date : Value → Option (Nat × Nat × Nat)
  | .vdate y m d => some (y, m, d)
  | .vstr s =>
    if (pyStrip s).data.isEmpty then none else tryFormats (pyStrip s).data
  | _ => none

/-- `datetime` comparison: lexicographic on (year, month, day). -/
def dateLt (a b : Nat × Nat × Nat) : Bool :=
  a.1 < b.1 || (a.1 = b.1 && (a.2.1 < b.2.1 || (a.2.1 = b.2.1 && a.2.2 < b.2.2)))

/-! ### Regex model

`re.search(pattern, s, re.IGNORECASE)` is standard-library code.  The model
covers exactly the fragment the engine claims rely on: compiling a pattern
with unbalanced parentheses raises `re.error` (Python: "missing ),
unterminated subpattern"); a syntactically accepted pattern is then treated
as a literal case-insensitive substring search.  Semantics of other regex
metacharacters are not modelled — no claim depends on them.
-/

/-- Python substring containment `needle in hay` on character lists. -/
def containsSub (needle : List Char) : List Char → Bool
  | [] => needle.isEmpty
  | c :: rest => needle.isPrefixOf (c :: rest) || containsSub needle rest

/-- Balanced-parenthesis check (the modelled compile-time validity). -/
def parensBalancedAux : List Char → Nat → Bool
  | [], 0 => true
  | [], _ + 1 => false
  | '(' :: rest, n => parensBalancedAux rest (n + 1)
  | ')' :: _, 0 => false
  | ')' :: rest, n + 1 => parensBalancedAux rest n
  | _ :: rest, n => parensBalancedAux rest n

/-- A pattern compiles iff its parentheses balance (modelled fragment). -/
def patternCompiles (pat : String) : Bool :=
  parensBalancedAux pat.data 0

/-- Model of `bool(re.search(pat, s, re.IGNORECASE))`; `.error` models an
uncaught `re.error` escaping from pattern compilation. -/
def re_search_ic (pat s : String) : Except String Bool :=
  if patternCompiles pat then
    .ok (containsSub (pyLower pat).data (pyLower s).data)
  else
    .error "re.error: missing ), unterminated subpattern"

/-! ### Condition evaluation -/

/-- A condition dict: `field` and `operator` are present (the validator
requires them); a missing `value` key is Python `None`, i.e. `vnone`. -/
structure Condition where
  field : String
  operator : String
  value : Value
deriving DecidableEq

/-- `evaluate_condition` (`change_detector.py` lines 39-106).  The result
is `Except`: `.error` models an exception escaping the function — which the
source only makes possible in the two regex-pattern branches, the date
branches being wrapped in `try/except`. -/
def evaluate_condition (row_a row_b : Option Row) (c : Condition) :
    Except String Bool :=
  let current_row := match row_b with | some _ => row_b | none => row_a
  let prev_row := row_a
  let current_val := match current_row with
    | some r => rowGetV r c.field
    | none => .vnone
  let prev_val := match prev_row with
    | some r => rowGetV r c.field
    | none => .vnone
  if c.operator = "is_empty" then .ok (isEmptyV current_val)
  else if c.operator = "is_not_empty" then .ok (!isEmptyV current_val)
  else if c.operator = "equals" then
    .ok (normalize current_val = normalize c.value)
  else if c.operator = "not_equals" then
    .ok (!(normalize current_val = normalize c.value))
  else if c.operator = "contains" then
    .ok (containsSub (pyLower (pyStr c.value)).data
      (pyLower (pyStr (orEmptyStr current_val))).data)
  else if c.operator = "starts_with" then
    .ok (((pyLower (pyStr c.value)).data).isPrefixOf
      ((pyLower (pyStr (orEmptyStr current_val))).data))
  else if c.operator = "changed_from_empty" then
    .ok (isEmptyV prev_val && !isEmptyV current_val)
  else if c.operator = "changed_to_empty" then
    .ok (!isEmptyV prev_val && isEmptyV current_val)
  else if c.operator = "date_is_before" then
    .ok (match parse_date current_val, parse_date c.value with
      | some d1, some d2 => dateLt d1 d2
      | _, _ => false)
  else if c.operator = "date_is_after" then
    .ok (match parse_date current_val, parse_date c.value with
      | some d1, some d2 => dateLt d2 d1
      | _, _ => false)
  else if c.operator = "changed_from_pattern" then
    re_search_ic (pyStr c.value) (pyStr (orEmptyStr prev_val))
  else if c.operator = "changed_to_pattern" then
    re_search_ic (pyStr c.value) (pyStr (orEmptyStr current_val))
  else .ok false

/-- `evaluate_conditions` (`change_detector.py` lines 109-115): the list
comprehension evaluates every condition left to right (the first exception
propagates), then folds with `all`/`any`. -/
def evaluate_conditions (row_a row_b : Option Row) (conds : List Condition)
    (join : String) : Except String Bool :=
  match conds.mapM (evaluate_condition row_a row_b) with
  | .error e => .error e
  | .ok results =>
    .ok (if join = "AND" then results.all id else results.any id)

/-! ### Outcome-label resolution (`resolve_outcome_label`)

`re.sub(r'\x5c\x7b(\x5cw[\x5cw\x5cs]*)\x7d', replacer, label_template)`
is modelled by a left-to-right scanner.  Because the token classes `\w`
and `\s` contain neither brace, the regex matches exactly: an opening
brace, a word character, further word/space characters, then immediately a
closing brace — no backtracking subtleties arise, and matches cannot
overlap.  The scanner state is `none` (plain text) or `some acc` (an
opening brace has been read, `acc` holds the token characters so far).
-/

/-- ASCII model of `\w`. -/
def isWordChar (c : Char) : Bool :=
  c.isAlphanum || c = '_'

/-- ASCII model of `\s`. -/
def isWsChar (c : Char) : Bool :=
  isPySpace c

/-- The scanner underlying `re.sub` for the placeholder pattern; `repl`
maps a matched token (the group) to its replacement text. -/
def substGo (repl : String → String) : List Char → Option (List Char) → List Char
  | [], none => []
  | [], some acc => '\x7b' :: acc
  | c :: rest, none =>
    if c = '\x7b' then substGo repl rest (some [])
    else c :: substGo repl rest none
  | c :: rest, some [] =>
    if isWordChar c then substGo repl rest (some [c])
    else if c = '\x7b' then '\x7b' :: substGo repl rest (some [])
    else '\x7b' :: c :: substGo repl rest none
  | c :: rest, some (a :: acc) =>
    if c = '\x7d' then
      (repl (String.mk (a :: acc))).data ++ substGo repl rest none
    else if isWordChar c || isWsChar c then
      substGo repl rest (some ((a :: acc) ++ [c]))
    else if c = '\x7b' then
      '\x7b' :: (a :: acc) ++ substGo repl rest (some [])
    else
      '\x7b' :: (a :: acc) ++ (c :: substGo repl rest none)

/-- The `replacer` closure of `resolve_outcome_label` (`change_detector.py`
lines 134-137): `val = row.get(field, '')`, then `str(val)` unless `None`. -/
def replacerLookup (row : Row) (name : String) : String :=
  match rowGetD row name (.vstr "") with
  | .vnone => ""
  | v => pyStr v

/-- `resolve_outcome_label` (`change_detector.py` lines 132-138). -/
def resolve_outcome_label (label_template : String) (row : Row) : String :=
  String.mk (substGo (replacerLookup row) label_template.data none)

/-- The substitution the spec sentence describes instead: placeholders
replaced by the record field value under the comparison normalization
`normalize` (null/absent → empty, date → ISO, trimmed string).  Used to
compare the spec claim against the source behaviour. -/
def resolveLabelNormalized (label_template : String) (row : Row) : String :=
  String.mk (substGo (fun f => normalize (rowGetV row f)) label_template.data none)

/-- Whether the placeholder pattern matches anywhere in the template, i.e.
whether `re.sub` would invoke the replacer at least once. -/
def hasToken : List Char → Option (List Char) → Bool
  | [], _ => false
  | c :: rest, none =>
    if c = '\x7b' then hasToken rest (some [])
    else hasToken rest none
  | c :: rest, some [] =>
    if isWordChar c then hasToken rest (some [c])
    else if c = '\x7b' then hasToken rest (some [])
    else hasToken rest none
  | c :: rest, some (a :: acc) =>
    if c = '\x7d' then true
    else if isWordChar c || isWsChar c then hasToken rest (some ((a :: acc) ++ [c]))
    else if c = '\x7b' then hasToken rest (some [])
    else hasToken rest none

/-- `resolve_outcome_label(label, row)` where `row` may be Python `None`
(reachable from `_evaluate_rule` when both context rows are absent): the
replacer then dereferences `None` and raises `AttributeError`, but only if
the pattern matches at least once. -/
def resolveOptRow (label_template : String) (row : Option Row) :
    Except String String :=
  match row with
  | some r => .ok (resolve_outcome_label label_template r)
  | none =>
    if hasToken label_template.data none then
      .error "AttributeError: NoneType has no attribute get"
    else .ok label_template

/-! ## Rule schema (`rule_schema.py`) and executor (`rule_executor.py`)

A rule's `config` is a dict in the source; the embedding is a record of
the keys the executor reads, each `Option`-valued (`none` = key absent),
so every `cfg.get(key, default)` becomes `Option.getD`.
-/

/-- A `only_in_file_a` / `only_in_file_b` sub-dict of a PRESENCE_RULE
config. -/
structure PresenceEntry where
  outcomeLabel? : Option String := none
  color? : Option String := none
deriving DecidableEq

/-- The config keys read by `_evaluate_rule` and `execute_template`. -/
structure RuleConfig where
  onlyInFileB? : Option PresenceEntry := none
  onlyInFileA? : Option PresenceEntry := none
  fields? : Option (List String) := none
  outcomeLabel? : Option String := none
  color? : Option String := none
  conditions? : Option (List Condition) := none
  conditionJoin? : Option String := none
  method? : Option String := none
  fuzzyThreshold? : Option ℚ := none
deriving DecidableEq

/-- A rule (`rule_schema.py` `Rule` dataclass): `output_column` defaults
to the empty string, which stands for the shared Remarks column. -/
structure Rule where
  rule_type : String
  config : RuleConfig
  output_column : String := ""
deriving DecidableEq

/-- An output-column entry `{'label': ..., 'color': ...}`; the colour can
be Python `None` (the unchanged-row default). -/
abbrev OutEntry := String × Option String

/-- Truthiness of `fields or compare_fields` in the CHANGE_RULE branch:
an empty configured list falls back to `compare_fields`. -/
def changeRuleFields (cfg : RuleConfig) (compare_fields : List String) :
    List String :=
  match cfg.fields? with
  | none => compare_fields
  | some l => if l.isEmpty then compare_fields else l

/-- `_evaluate_rule` (`rule_executor.py` lines 169-216).  Returns
`some (label, color)` when the rule fires, `none` otherwise; `.error`
models an exception escaping (possible only through condition evaluation
and label resolution on an absent row). -/
def evaluate_rule (rule : Rule) (row_a row_b : Option Row)
    (context : String) (compare_fields : List String)
    (all_changed_fields : Option (List String)) :
    Except String (Option OutEntry) :=
  let cfg := rule.config
  if rule.rule_type = "PRESENCE_RULE" then
    if context = "addition" then
      let entry := cfg.onlyInFileB?.getD {}
      let label := entry.outcomeLabel?.getD "Addition"
      let color := entry.color?.getD "#C6EFCE"
      let resolved := match row_b with
        | some rb => if rb.isEmpty then label else resolve_outcome_label label rb
        | none => label
      .ok (some (resolved, some color))
    else if context = "deletion" then
      let entry := cfg.onlyInFileA?.getD {}
      let label := entry.outcomeLabel?.getD "Deletion"
      let color := entry.color?.getD "#FFC7CE"
      let resolved := match row_a with
        | some ra => if ra.isEmpty then label else resolve_outcome_label label ra
        | none => label
      .ok (some (resolved, some color))
    else .ok none
  else if rule.rule_type = "CHANGE_RULE" then
    if context ≠ "matched" then .ok none
    else
      let check_fields := changeRuleFields cfg compare_fields
      let changed := match all_changed_fields with
        | some ch => check_fields.filter fun f => ch.contains f
        | none =>
          match row_a, row_b with
          | some ra, some rb =>
            if ra.isEmpty || rb.isEmpty then []
            else fields_changed ra rb check_fields
          | _, _ => []
      if !changed.isEmpty then
        .ok (some (cfg.outcomeLabel?.getD "Changed", some (cfg.color?.getD "#FFEB9C")))
      else .ok none
  else if rule.rule_type = "CONDITION_RULE" then
    let conditions := cfg.conditions?.getD []
    let join := cfg.conditionJoin?.getD "AND"
    match evaluate_conditions row_a row_b conditions join with
    | .error e => .error e
    | .ok fired =>
      if fired then
        let active_row := match row_b with
          | some _ => row_b
          | none => row_a
        match resolveOptRow (cfg.outcomeLabel?.getD "Flagged") active_row with
        | .error e => .error e
        | .ok label => .ok (some (label, some (cfg.color?.getD "#FFC7CE")))
      else .ok none
  else .ok none

/-- The column a rule targets: `rule.output_column or 'Remarks'`. -/
def ruleColName (rule : Rule) : String :=
  if rule.output_column = "" then "Remarks" else rule.output_column

/-- Loop of `_compute_output_columns` (`rule_executor.py` lines 152-164)
over the remaining rules, with the accumulated output-column dict. -/
def computeOutputColumnsAux (row_a row_b : Option Row) (context : String)
    (compare_fields : List String) (all_changed_fields : Option (List String)) :
    List Rule → List (String × OutEntry) →
    Except String (List (String × OutEntry))
  | [], acc => .ok acc
  | rule :: rest, acc =>
    if rule.rule_type = "ROW_MATCH" ∨ rule.rule_type = "FORMULA_RULE" then
      computeOutputColumnsAux row_a row_b context compare_fields
        all_changed_fields rest acc
    else
      match List.lookup (ruleColName rule) acc with
      | some _ =>
        computeOutputColumnsAux row_a row_b context compare_fields
          all_changed_fields rest acc
      | none =>
        match evaluate_rule rule row_a row_b context compare_fields
          all_changed_fields with
        | .error e => .error e
        | .ok none =>
          computeOutputColumnsAux row_a row_b context compare_fields
            all_changed_fields rest acc
        | .ok (some entry) =>
          computeOutputColumnsAux row_a row_b context compare_fields
            all_changed_fields rest (acc ++ [(ruleColName rule, entry)])

/-- `_compute_output_columns` (`rule_executor.py` lines 139-166). -/
def compute_output_columns (context : String) (row_a row_b : Option Row)
    (rules : List Rule) (compare_fields : List String)
    (all_changed_fields : Option (List String)) :
    Except String (List (String × OutEntry)) :=
  computeOutputColumnsAux row_a row_b context compare_fields
    all_changed_fields rules []

/-- The claim-side reading of first-fires-wins: the entry of the first
rule in template order that targets `col` and fires (skipping matcher and
formula rules, and treating a failed evaluation as producing nothing). -/
def firstFiringEntry (context : String) (row_a row_b : Option Row)
    (rules : List Rule) (compare_fields : List String)
    (all_changed_fields : Option (List String)) (col : String) :
    Option OutEntry :=
  rules.findSome? fun rule =>
    if rule.rule_type = "ROW_MATCH" ∨ rule.rule_type = "FORMULA_RULE" then none
    else if ruleColName rule = col then
      match evaluate_rule rule row_a row_b context compare_fields
        all_changed_fields with
      | .ok (some entry) => some entry
      | _ => none
    else none

/-! ### Templates and diff rows -/

/-- The `column_mapping` fields the executor reads (`ignored_fields` and
`formula_fields` are carried by the schema but unread here). -/
structure ColumnMapping where
  unique_key : List String
  compare_fields : List String := []
  display_fields : List String := []
deriving DecidableEq

/-- The `output_config` field the executor reads.  (Spec §3 declares
`include_unmatched_rows: bool`; the Python `OutputConfig` dataclass does
not list it, so the executor relies on the attribute being present on the
object it receives.) -/
structure OutputConfig where
  include_unmatched_rows : Bool
deriving DecidableEq

/-- The template fields the executor reads (`template_name` and
`sheet_config` only steer ingestion). -/
structure ComparisonTemplate where
  column_mapping : ColumnMapping
  rules : List Rule
  output_config : OutputConfig
deriving DecidableEq

/-- The summary dict of `_build_summary`. -/
structure Summary where
  total : Nat
  additions : Nat
  deletions : Nat
  changes : Nat
  unchanged : Nat
deriving DecidableEq

/-- One output row of `execute_template`. -/
structure DiffRow where
  data : List (String × Value)
  source : String
  output_columns : List (String × OutEntry)
  remarks : String
  color : Option String
  changed_fields : List String
  rowAOrig : Option (List (String × Value))
deriving DecidableEq

/-- The result dict of `execute_template`; `warnings` is attached only
when nonempty in the source, here carried as a (possibly empty) list. -/
structure ExecResult where
  rows : List DiffRow
  summary : Summary
  warnings : List (String × Nat)
deriving DecidableEq

/-- `dict.fromkeys` de-duplication: keeps the first occurrence, in order. -/
def pyDedup (l : List String) : List String :=
  l.foldl (fun acc x => if acc.contains x then acc else acc ++ [x]) []

/-- `_build_output_row` (`rule_executor.py` lines 219-226). -/
def build_output_row (row : Row) (key_fields compare_fields display_fields :
    List String) : List (String × Value) :=
  (pyDedup (key_fields ++ display_fields ++ compare_fields)).map
    fun f => (f, rowGetV row f)

/-- Effectful `map` over a list in `Except`, mirroring a Python `for` loop
that appends one result per element and lets the first exception escape. -/
def emapM {α β : Type} (f : α → Except String β) :
    List α → Except String (List β)
  | [] => .ok []
  | x :: xs =>
    match f x with
    | .error e => .error e
    | .ok y =>
      match emapM f xs with
      | .error e => .error e
      | .ok ys => .ok (y :: ys)

/-- Like `emapM` but the body may skip an element (`continue`). -/
def efilterMapM {α β : Type} (f : α → Except String (Option β)) :
    List α → Except String (List β)
  | [] => .ok []
  | x :: xs =>
    match f x with
    | .error e => .error e
    | .ok none => efilterMapM f xs
    | .ok (some y) =>
      match efilterMapM f xs with
      | .error e => .error e
      | .ok ys => .ok (y :: ys)

/-- The addition-loop body (`rule_executor.py` lines 67-84): `none` models
`continue` (row dropped). -/
def processAddition (tmpl : ComparisonTemplate) (rows_b : List Row)
    (j : Nat) : Except String (Option DiffRow) :=
  let cm := tmpl.column_mapping
  let row_b := rows_b.getD j []
  match compute_output_columns "addition" none (some row_b) tmpl.rules
    cm.compare_fields none with
  | .error e => .error e
  | .ok oc =>
    if oc.isEmpty && !tmpl.output_config.include_unmatched_rows then .ok none
    else
      let oc' := if (List.lookup "Remarks" oc).isSome then oc
        else oc ++ [("Remarks", (("Addition", some "#C6EFCE") : OutEntry))]
      let rem := (List.lookup "Remarks" oc').getD ("Addition", some "#C6EFCE")
      .ok (some {
        data := build_output_row row_b cm.unique_key cm.compare_fields
          cm.display_fields
        source := "B"
        output_columns := oc'
        remarks := rem.1
        color := rem.2
        changed_fields := []
        rowAOrig := none })

/-- The deletion-loop body (`rule_executor.py` lines 87-104). -/
def processDeletion (tmpl : ComparisonTemplate) (rows_a : List Row)
    (i : Nat) : Except String (Option DiffRow) :=
  let cm := tmpl.column_mapping
  let row_a := rows_a.getD i []
  match compute_output_columns "deletion" (some row_a) none tmpl.rules
    cm.compare_fields none with
  | .error e => .error e
  | .ok oc =>
    if oc.isEmpty && !tmpl.output_config.include_unmatched_rows then .ok none
    else
      let oc' := if (List.lookup "Remarks" oc).isSome then oc
        else oc ++ [("Remarks", (("Deletion", some "#FFC7CE") : OutEntry))]
      let rem := (List.lookup "Remarks" oc').getD ("Deletion", some "#FFC7CE")
      .ok (some {
        data := build_output_row row_a cm.unique_key cm.compare_fields
          cm.display_fields
        source := "A"
        output_columns := oc'
        remarks := rem.1
        color := rem.2
        changed_fields := []
        rowAOrig := none })

/-- The matched-pair loop body (`rule_executor.py` lines 107-130). -/
def processMatched (tmpl : ComparisonTemplate) (rows_a rows_b : List Row)
    (p : Nat × Nat) : Except String DiffRow :=
  let cm := tmpl.column_mapping
  let row_a := rows_a.getD p.1 []
  let row_b := rows_b.getD p.2 []
  let all_changed := fields_changed row_a row_b cm.compare_fields
  match compute_output_columns "matched" (some row_a) (some row_b)
    tmpl.rules cm.compare_fields (some all_changed) with
  | .error e => .error e
  | .ok oc =>
    let oc' := if (List.lookup "Remarks" oc).isSome then oc
      else if !all_changed.isEmpty then
        oc ++ [("Remarks", (("Changed", some "#FFEB9C") : OutEntry))]
      else oc ++ [("Remarks", (("", none) : OutEntry))]
    let rem := (List.lookup "Remarks" oc').getD ("", none)
    let all_data_fields := pyDedup (cm.unique_key ++ cm.display_fields ++
      cm.compare_fields)
    .ok {
      data := build_output_row row_b cm.unique_key cm.compare_fields
        cm.display_fields
      source := "matched"
      output_columns := oc'
      remarks := rem.1
      color := rem.2
      changed_fields := all_changed
      rowAOrig := some (all_data_fields.map fun f => (f, rowGetV row_a f)) }

/-- `_build_summary` (`rule_executor.py` lines 229-240). -/
def build_summary (result_rows : List DiffRow) : Summary :=
  { total := result_rows.length
    additions := (result_rows.filter fun r => r.source = "B").length
    deletions := (result_rows.filter fun r => r.source = "A").length
    changes := (result_rows.filter
      fun r => r.source = "matched" && !r.changed_fields.isEmpty).length
    unchanged := (result_rows.filter
      fun r => r.source = "matched" && r.changed_fields.isEmpty).length }

/-- `execute_template` (`rule_executor.py` lines 20-136), embedded after
the `dataframe_to_rows` conversion (its inputs are the two record lists).
The match-method scan takes the first ROW_MATCH rule; any method other
than `'fuzzy'` selects exact matching. -/
def execute_template (tmpl : ComparisonTemplate) (rows_a rows_b : List Row) :
    Except String ExecResult :=
  let cm := tmpl.column_mapping
  let rowMatch := tmpl.rules.find? fun r => r.rule_type = "ROW_MATCH"
  let match_method := match rowMatch with
    | some r => r.config.method?.getD "exact"
    | none => "exact"
  let fuzzy_threshold := match rowMatch with
    | some r => r.config.fuzzyThreshold?.getD (4 / 5 : ℚ)
    | none => (4 / 5 : ℚ)
  let matchRes := if match_method = "fuzzy" then
      fuzzy_match rows_a rows_b cm.unique_key fuzzy_threshold
    else
      .ok (exact_match rows_a rows_b cm.unique_key)
  match matchRes with
  | .error e => .error e
  | .ok (matched_pairs, only_a, only_b, match_warnings) =>
    match efilterMapM (processAddition tmpl rows_b) only_b with
    | .error e => .error e
    | .ok rowsB =>
      match efilterMapM (processDeletion tmpl rows_a) only_a with
      | .error e => .error e
      | .ok rowsA =>
        match emapM (processMatched tmpl rows_a rows_b) matched_pairs with
        | .error e => .error e
        | .ok rowsM =>
          let result_rows := rowsB ++ rowsA ++ rowsM
          .ok { rows := result_rows
                summary := build_summary result_rows
                warnings := match_warnings }

/-- The Remarks entry the executor synthesizes when no rule produced one,
as a function of the row's source and changed-field list. -/
def defaultRemark (source : String) (changed_fields : List String) :
    OutEntry :=
  if source = "B" then ("Addition", some "#C6EFCE")
  else if source = "A" then ("Deletion", some "#FFC7CE")
  else if !changed_fields.isEmpty then ("Changed", some "#FFEB9C")
  else ("", none)

/-! ## Concrete instances used by witnesses and counterexamples -/

/-- A one-field record with id "1". -/
def rowId1 : Row := [("id", .vstr "1")]

/-- Rows exhibiting separator collision in `make_key`: the pipe separator
occurs in a key-field value. -/
def rowPipe1 : Row := [("f1", .vstr "x|y"), ("f2", .vstr "")]

/-- Companion row for the separator collision. -/
def rowPipe2 : Row := [("f1", .vstr "x"), ("f2", .vstr "y|")]

/-- A condition whose value is the malformed regex pattern "(". -/
def condBadRegex : Condition := ⟨"f", "changed_to_pattern", .vstr "("⟩

/-- A CONDITION_RULE carrying the malformed pattern. -/
def ruleBadRegex : Rule :=
  { rule_type := "CONDITION_RULE"
    config := { conditions? := some [condBadRegex]
                outcomeLabel? := some "Flagged" } }

/-- A template whose only rule is the malformed-pattern condition rule. -/
def tmplBadRegex : ComparisonTemplate :=
  { column_mapping := { unique_key := ["id"] }
    rules := [ruleBadRegex]
    output_config := { include_unmatched_rows := true } }

/-- First of two PRESENCE rules competing for the Remarks column. -/
def presRuleFirst : Rule :=
  { rule_type := "PRESENCE_RULE"
    config := { onlyInFileB? := some { outcomeLabel? := some "First" } } }

/-- Second of two PRESENCE rules competing for the Remarks column. -/
def presRuleSecond : Rule :=
  { rule_type := "PRESENCE_RULE"
    config := { onlyInFileB? := some { outcomeLabel? := some "Second" } } }

/-- The output-column dict produced when the two competing PRESENCE rules
run in addition context: only the first one's label appears. -/
def ccFirstWins : List (String × OutEntry) :=
  [("Remarks", ("First", some "#C6EFCE"))]

/-- A CHANGE_RULE whose configured fields list is empty (it passes
validation, which only requires `fields` to be a list). -/
def changeRuleEmptyFields : Rule :=
  { rule_type := "CHANGE_RULE", config := { fields? := some [] } }

/-- A CHANGE_RULE configured to watch the "name" field. -/
def changeRuleName : Rule :=
  { rule_type := "CHANGE_RULE", config := { fields? := some ["name"] } }

/-- A row whose "Name" value carries surrounding whitespace, separating
raw from normalized substitution. -/
def rowName : Row := [("Name", .vstr "  x  ")]

/-- A minimal template: id key, no rules, unmatched rows kept. -/
def tmplSimple : ComparisonTemplate :=
  { column_mapping := { unique_key := ["id"] }
    rules := []
    output_config := { include_unmatched_rows := true } }

/-- The diff row `execute_template tmplSimple [] [rowId1]` emits. -/
def diffRowAdd : DiffRow :=
  { data := [("id", .vstr "1")]
    source := "B"
    output_columns := [("Remarks", ("Addition", some "#C6EFCE"))]
    remarks := "Addition"
    color := some "#C6EFCE"
    changed_fields := []
    rowAOrig := none }

/-- The full result of `execute_template tmplSimple [] [rowId1]`. -/
def execResAdd : ExecResult :=
  { rows := [diffRowAdd]
    summary := { total := 1, additions := 1, deletions := 0, changes := 0,
                 unchanged := 0 }
    warnings := [] }

/-- A well-formed placeholder token: a word character followed by word or
space characters (the group of the placeholder regex). -/
def validToken (f : String) : Bool :=
  match f.data with
  | [] => false
  | c :: cs => isWordChar c && cs.all fun x => isWordChar x || isWsChar x

/-! ## Helper lemmas -/

/-- Splitting at the first separator: appending distinct pipe-free prefixes
before a pipe cannot yield the same list. -/
theorem append_pipe_inj :
    ∀ (a : List Char) (b : List Char) (x y : List Char),
      '|' ∉ a → '|' ∉ b → a ++ '|' :: x = b ++ '|' :: y → a = b ∧ x = y := by
  intro a
  induction a with
  | nil =>
    intro b x y _ hb h
    cases b with
    | nil => simpa using h
    | cons c b' =>
      simp only [List.nil_append, List.cons_append, List.cons.injEq] at h
      exact absurd (h.1 ▸ List.mem_cons_self c b') hb
  | cons c a' ih =>
    intro b x y ha hb h
    cases b with
    | nil =>
      simp only [List.cons_append, List.nil_append, List.cons.injEq] at h
      exact absurd (h.1 ▸ List.mem_cons_self c a') ha
    | cons d b' =>
      simp only [List.cons_append, List.cons.injEq] at h
      obtain ⟨rfl, h2⟩ := h
      have := ih b' x y (fun hm => ha (List.mem_cons_of_mem _ hm))
        (fun hm => hb (List.mem_cons_of_mem _ hm)) h2
      exact ⟨by rw [this.1], this.2⟩

/-- The character list of a pipe-join step. -/
theorem joinParts_cons_data (p : String) (q : String) (rest : List String) :
    (joinParts (p :: q :: rest)).data =
      p.data ++ '|' :: (joinParts (q :: rest)).data := by
  show (p ++ "|" ++ joinParts (q :: rest)).data = _
  simp [String.data_append]

/-- `'|'.join` is injective on lists of pipe-free parts of equal length. -/
theorem joinParts_inj :
    ∀ (l1 l2 : List String), l1.length = l2.length →
      (∀ s ∈ l1, '|' ∉ s.data) → (∀ s ∈ l2, '|' ∉ s.data) →
      joinParts l1 = joinParts l2 → l1 = l2 := by
  intro l1
  induction l1 with
  | nil =>
    intro l2 hlen _ _ _
    cases l2 with
    | nil => rfl
    | cons q u => simp at hlen
  | cons p t ih =>
    intro l2 hlen h1 h2 hj
    cases l2 with
    | nil => simp at hlen
    | cons q u =>
      cases t with
      | nil =>
        cases u with
        | nil => simpa [joinParts] using hj
        | cons q2 u2 => simp at hlen
      | cons p2 t2 =>
        cases u with
        | cons q2 u2 =>
          have hd : (joinParts (p :: p2 :: t2)).data =
              (joinParts (q :: q2 :: u2)).data := by rw [hj]
          rw [joinParts_cons_data, joinParts_cons_data] at hd
          have hsplit := append_pipe_inj p.data q.data _ _
            (h1 p (by simp)) (h2 q (by simp)) hd
          have hpq : p = q := String.ext hsplit.1
          have hrest : p2 :: t2 = q2 :: u2 := by
            apply ih (q2 :: u2) (by simpa using hlen)
              (fun s hs => h1 s (List.mem_cons_of_mem _ hs))
              (fun s hs => h2 s (List.mem_cons_of_mem _ hs))
            exact String.ext hsplit.2
          rw [hpq, hrest]
        | nil => simp at hlen

/-- A successful association-list lookup comes from a member entry. -/
theorem lookup_mem {β : Type} {k : String} {v : β} :
    ∀ {l : List (String × β)}, List.lookup k l = some v → (k, v) ∈ l := by
  intro l
  induction l with
  | nil => intro h; simp [List.lookup] at h
  | cons p rest ih =>
    intro h
    rw [show p = (p.1, p.2) from rfl, List.lookup_cons] at h
    by_cases hk : k = p.1
    · simp [hk] at h
      simp [hk, ← h]
    · have : (k == p.1) = false := beq_false_of_ne hk
      simp [this] at h
      exact List.mem_cons_of_mem _ (ih h)

/-- Values stored by the `build_key_index` loop are below the final
position. -/
theorem buildKeyIndexAux_val_lt (kf : List String) :
    ∀ (rest : List Row) (i : Nat) (idx : List (String × Nat)) (dups : Nat)
      (k : String) (j : Nat),
      (∀ k' j', (k', j') ∈ idx → j' < i) →
      (k, j) ∈ (buildKeyIndexAux kf rest i idx dups).1 →
      j < i + rest.length := by
  intro rest
  induction rest with
  | nil =>
    intro i idx dups k j hinv hmem
    simpa using hinv k j hmem
  | cons r rest ih =>
    intro i idx dups k j hinv hmem
    simp only [buildKeyIndexAux] at hmem
    by_cases hdup : (List.lookup (make_key r kf) idx).isSome
    · simp only [hdup, if_true] at hmem
      have := ih (i + 1) idx (dups + 1) k j
        (fun k' j' h => Nat.lt_succ_of_lt (hinv k' j' h)) hmem
      simpa [Nat.add_comm, Nat.add_assoc, Nat.add_left_comm] using this
    · simp only [hdup, if_false] at hmem
      have hinv' : ∀ k' j', (k', j') ∈ idx ++ [(make_key r kf, i)] → j' < i + 1 := by
        intro k' j' h
        rcases List.mem_append.mp h with h | h
        · exact Nat.lt_succ_of_lt (hinv k' j' h)
        · simp at h
          omega
      have := ih (i + 1) (idx ++ [(make_key r kf, i)]) dups k j hinv' hmem
      simpa [Nat.add_comm, Nat.add_assoc, Nat.add_left_comm] using this

/-- A key found in `build_key_index rows kf` points inside `rows`. -/
theorem build_key_index_lt {rows : List Row} {kf : List String}
    {k : String} {j : Nat}
    (h : List.lookup k (build_key_index rows kf).1 = some j) :
    j < rows.length := by
  have hm := lookup_mem h
  have := buildKeyIndexAux_val_lt kf rows 0 [] 0 k j (by simp) hm
  simpa using this

/-- Membership in the matched-pairs list of `exact_match`. -/
theorem exact_match_pairs_mem {rows_a rows_b : List Row} {kf : List String}
    {i j : Nat} :
    (i, j) ∈ (exact_match rows_a rows_b kf).1 ↔
      ∃ row, (i, row) ∈ rows_a.enum ∧
        List.lookup (make_key row kf) (build_key_index rows_b kf).1 = some j := by
  simp only [exact_match, List.mem_filterMap, Option.map_eq_some']
  constructor
  · rintro ⟨⟨i', row⟩, hmem, j', hlk, hpair⟩
    obtain ⟨rfl, rfl⟩ := Prod.mk.injEq .. ▸ hpair
    exact ⟨row, hmem, hlk⟩
  · rintro ⟨row, hmem, hlk⟩
    exact ⟨(i, row), hmem, j, hlk, rfl⟩

/-- Membership in `only_in_a` of `exact_match`. -/
theorem exact_match_onlyA_mem {rows_a rows_b : List Row} {kf : List String}
    {i : Nat} :
    i ∈ (exact_match rows_a rows_b kf).2.1 ↔
      i < rows_a.length ∧
        i ∉ ((exact_match rows_a rows_b kf).1.map Prod.fst) := by
  simp only [exact_match, List.mem_filter, List.mem_range,
    Bool.not_eq_eq_eq_not, Bool.not_true, decide_eq_false_iff_not]

/-- Membership in `only_in_b` of `exact_match`. -/
theorem exact_match_onlyB_mem {rows_a rows_b : List Row} {kf : List String}
    {j : Nat} :
    j ∈ (exact_match rows_a rows_b kf).2.2.1 ↔
      j < rows_b.length ∧
        j ∉ ((exact_match rows_a rows_b kf).1.map Prod.snd) := by
  simp only [exact_match, List.mem_filter, List.mem_range,
    Bool.not_eq_eq_eq_not, Bool.not_true, decide_eq_false_iff_not]

/-! ## Claim theorems -/

/-- C1: the source matches **every** occurrence of a duplicated A-key, not
only the first.  With A = [id 1, id 1] and B = [id 1], `exact_match`
returns both pairs (0,0) and (1,0) while still reporting
`duplicate_keys_a = 1` — contradicting the first-occurrence-only contract
stated by the spec and by the logging in `build_key_index` itself. -/
theorem c1_exact_match_duplicates_all_matched :
    exact_match [rowId1, rowId1] [rowId1] ["id"] =
      ([(0, 0), (1, 0)], [], [], [("duplicate_keys_a", 1)]) := by
  decide

/-- C3: matched-set partition for `exact_match`.  On each side, the
unmatched list together with that side's pair indices covers exactly the
row indices of that side, and no index is both matched and unmatched. -/
theorem c3_exact_match_partition (rows_a rows_b : List Row)
    (kf : List String) :
    (∀ i, (i ∈ (exact_match rows_a rows_b kf).2.1 ∨
        ∃ j, (i, j) ∈ (exact_match rows_a rows_b kf).1) ↔ i < rows_a.length) ∧
    (∀ i, ¬(i ∈ (exact_match rows_a rows_b kf).2.1 ∧
        ∃ j, (i, j) ∈ (exact_match rows_a rows_b kf).1)) ∧
    (∀ j, (j ∈ (exact_match rows_a rows_b kf).2.2.1 ∨
        ∃ i, (i, j) ∈ (exact_match rows_a rows_b kf).1) ↔ j < rows_b.length) ∧
    (∀ j, ¬(j ∈ (exact_match rows_a rows_b kf).2.2.1 ∧
        ∃ i, (i, j) ∈ (exact_match rows_a rows_b kf).1)) := by
  have hpairA : ∀ i, (∃ j, (i, j) ∈ (exact_match rows_a rows_b kf).1) →
      i < rows_a.length := by
    intro i ⟨j, hij⟩
    obtain ⟨row, hmem, -⟩ := exact_match_pairs_mem.mp hij
    exact (List.mem_enum hmem).1
  have hpairB : ∀ j, (∃ i, (i, j) ∈ (exact_match rows_a rows_b kf).1) →
      j < rows_b.length := by
    intro j ⟨i, hij⟩
    obtain ⟨row, -, hlk⟩ := exact_match_pairs_mem.mp hij
    exact build_key_index_lt hlk
  have hfst : ∀ i, (∃ j, (i, j) ∈ (exact_match rows_a rows_b kf).1) ↔
      i ∈ ((exact_match rows_a rows_b kf).1.map Prod.fst) := by
    intro i
    simp only [List.mem_map]
    constructor
    · rintro ⟨j, h⟩; exact ⟨(i, j), h, rfl⟩
    · rintro ⟨⟨i', j⟩, h, rfl⟩; exact ⟨j, h⟩
  have hsnd : ∀ j, (∃ i, (i, j) ∈ (exact_match rows_a rows_b kf).1) ↔
      j ∈ ((exact_match rows_a rows_b kf).1.map Prod.snd) := by
    intro j
    simp only [List.mem_map]
    constructor
    · rintro ⟨i, h⟩; exact ⟨(i, j), h, rfl⟩
    · rintro ⟨⟨i, j'⟩, h, rfl⟩; exact ⟨i, h⟩
  refine ⟨fun i => ⟨?_, ?_⟩, fun i ⟨ho, hp⟩ => ?_, fun j => ⟨?_, ?_⟩,
    fun j ⟨ho, hp⟩ => ?_⟩
  · rintro (h | h)
    · exact (exact_match_onlyA_mem.mp h).1
    · exact hpairA i h
  · intro hlt
    by_cases hm : ∃ j, (i, j) ∈ (exact_match rows_a rows_b kf).1
    · exact Or.inr hm
    · exact Or.inl (exact_match_onlyA_mem.mpr
        ⟨hlt, fun hc => hm ((hfst i).mpr hc)⟩)
  · exact (exact_match_onlyA_mem.mp ho).2 ((hfst i).mp hp)
  · rintro (h | h)
    · exact (exact_match_onlyB_mem.mp h).1
    · exact hpairB j h
  · intro hlt
    by_cases hm : ∃ i, (i, j) ∈ (exact_match rows_a rows_b kf).1
    · exact Or.inr hm
    · exact Or.inl (exact_match_onlyB_mem.mpr
        ⟨hlt, fun hc => hm ((hsnd j).mpr hc)⟩)
  · exact (exact_match_onlyB_mem.mp ho).2 ((hsnd j).mp hp)

/-- Witness for C3 at a concrete input. -/
theorem c3_exact_match_partition_witness :
    (0 ∈ (exact_match [rowId1] [rowId1] ["id"]).2.1 ∨
      ∃ j, (0, j) ∈ (exact_match [rowId1] [rowId1] ["id"]).1) ↔
      0 < ([rowId1] : List Row).length :=
  (c3_exact_match_partition [rowId1] [rowId1] ["id"]).1 0

/-- C4 counterexample: the separator `|` may occur inside data, so equal
composite keys do not force field-wise equality.  `make_key` builds the
same string "x|y|" from two field-wise different rows. -/
theorem c4_counterexample_separator_collision :
    make_key rowPipe1 ["f1", "f2"] = make_key rowPipe2 ["f1", "f2"] ∧
      ¬(∀ f ∈ ["f1", "f2"], keyPart rowPipe1 f = keyPart rowPipe2 f) := by
  decide

/-- C4 amended: field-wise equality of the normalized key parts always
implies key equality, and the two are equivalent whenever no normalized
key-field value contains the pipe separator. -/
theorem c4_make_key_equality (r1 r2 : Row) (K : List String) :
    ((∀ f ∈ K, keyPart r1 f = keyPart r2 f) →
      make_key r1 K = make_key r2 K) ∧
    ((∀ f ∈ K, '|' ∉ (keyPart r1 f).data ∧ '|' ∉ (keyPart r2 f).data) →
      (make_key r1 K = make_key r2 K ↔
        ∀ f ∈ K, keyPart r1 f = keyPart r2 f)) := by
  constructor
  · intro h
    unfold make_key
    rw [List.map_congr_left h]
  · intro hnp
    constructor
    · intro h f hf
      have hmaps : K.map (keyPart r1) = K.map (keyPart r2) := by
        apply joinParts_inj _ _ (by simp)
        · intro s hs
          obtain ⟨g, hg, rfl⟩ := List.mem_map.mp hs
          exact (hnp g hg).1
        · intro s hs
          obtain ⟨g, hg, rfl⟩ := List.mem_map.mp hs
          exact (hnp g hg).2
        · exact h
      exact List.map_inj_left.mp hmaps f hf
    · intro h
      unfold make_key
      rw [List.map_congr_left h]

/-- Witness for C4: whitespace and case differences do not prevent key
equality, by the forward direction at a concrete pair of rows. -/
theorem c4_make_key_equality_witness :
    make_key [("id", Value.vstr "  A1 ")] ["id"] =
      make_key [("id", Value.vstr "a1")] ["id"] :=
  (c4_make_key_equality [("id", Value.vstr "  A1 ")]
    [("id", Value.vstr "a1")] ["id"]).1 (by decide)

/-- C5: `fuzzy_match` fails with a structured error exactly when one side
exceeds the 2000-row ceiling, and returns a normal result otherwise. -/
theorem c5_fuzzy_row_ceiling (rows_a rows_b : List Row) (kf : List String)
    (threshold : ℚ) :
    ((∃ e, fuzzy_match rows_a rows_b kf threshold = .error e) ↔
      2000 < rows_a.length ∨ 2000 < rows_b.length) ∧
    (rows_a.length ≤ 2000 → rows_b.length ≤ 2000 →
      ∃ r, fuzzy_match rows_a rows_b kf threshold = .ok r) := by
  by_cases hc : 2000 < rows_a.length ∨ 2000 < rows_b.length
  · have hb : (rows_a.length > FUZZY_ROW_LIMIT ||
        rows_b.length > FUZZY_ROW_LIMIT) = true := by
      simp only [FUZZY_ROW_LIMIT, Bool.or_eq_true, decide_eq_true_eq]
      exact hc
    constructor
    · simp only [fuzzy_match, hb, if_true]
      exact ⟨fun _ => hc, fun _ => ⟨_, rfl⟩⟩
    · intro h1 h2
      omega
  · have hb : (rows_a.length > FUZZY_ROW_LIMIT ||
        rows_b.length > FUZZY_ROW_LIMIT) = false := by
      simp only [FUZZY_ROW_LIMIT, Bool.or_eq_false_iff, decide_eq_false_iff_not]
      omega
    constructor
    · simp only [fuzzy_match, hb, Bool.false_eq_true, if_false]
      exact ⟨fun ⟨e, he⟩ => absurd he (by simp), fun h => absurd h hc⟩
    · intro _ _
      simp only [fuzzy_match, hb, Bool.false_eq_true, if_false]
      exact ⟨_, rfl⟩

/-- Witness for C5: a small in-ceiling input returns normally. -/
theorem c5_fuzzy_row_ceiling_witness :
    ∃ r, fuzzy_match [rowId1] [rowId1] ["id"] (4 / 5 : ℚ) = .ok r :=
  (c5_fuzzy_row_ceiling [rowId1] [rowId1] ["id"] (4 / 5 : ℚ)).2
    (by decide) (by decide)

/-- C10: within the row ceiling, `fuzzy_match` always returns with an empty
warnings mapping — duplicate keys are never reported by the fuzzy path. -/
theorem c10_fuzzy_match_empty_warnings (rows_a rows_b : List Row)
    (kf : List String) (threshold : ℚ)
    (h1 : rows_a.length ≤ 2000) (h2 : rows_b.length ≤ 2000) :
    ∃ pairs oa ob, fuzzy_match rows_a rows_b kf threshold =
      .ok (pairs, oa, ob, ([] : List (String × Nat))) := by
  have hb : (rows_a.length > FUZZY_ROW_LIMIT ||
      rows_b.length > FUZZY_ROW_LIMIT) = false := by
    simp only [FUZZY_ROW_LIMIT, Bool.or_eq_false_iff, decide_eq_false_iff_not]
    omega
  simp only [fuzzy_match, hb, Bool.false_eq_true, if_false]
  exact ⟨_, _, _, rfl⟩

/-- Witness for C10: concrete fuzzy run with empty warnings, on an input
whose exact duplicate would be reported by `exact_match`. -/
theorem c10_fuzzy_match_empty_warnings_witness :
    ∃ pairs oa ob, fuzzy_match [rowId1, rowId1] [rowId1] ["id"]
      (4 / 5 : ℚ) = .ok (pairs, oa, ob, ([] : List (String × Nat))) :=
  c10_fuzzy_match_empty_warnings [rowId1, rowId1] [rowId1] ["id"]
    (4 / 5 : ℚ) (by decide) (by decide)

/-- C2: a malformed regex pattern in a `changed_to_pattern` condition makes
`evaluate_condition` raise (model: return `.error`), and — because neither
`evaluate_conditions`, `_evaluate_rule`, `_compute_output_columns` nor
`execute_template` wraps per-condition evaluation — the error aborts the
whole `execute_template` run. -/
theorem c2_malformed_regex_aborts_run :
    evaluate_condition (some [("f", Value.vstr "a")])
        (some [("f", Value.vstr "b")]) condBadRegex =
      .error "re.error: missing ), unterminated subpattern" ∧
    execute_template tmplBadRegex [[("id", Value.vstr "1")]]
        [[("id", Value.vstr "1")]] =
      .error "re.error: missing ), unterminated subpattern" := by
  decide

/-- Lookup distributes over the output-column accumulator of the
`_compute_output_columns` loop: the final binding of a column is its
accumulated binding, or else the first firing rule for it. -/
theorem computeOutputColumnsAux_lookup (row_a row_b : Option Row)
    (context : String) (compare_fields : List String)
    (ch : Option (List String)) :
    ∀ (rules : List Rule) (acc : List (String × OutEntry))
      (res : List (String × OutEntry)) (col : String),
      computeOutputColumnsAux row_a row_b context compare_fields ch
        rules acc = .ok res →
      List.lookup col res = (List.lookup col acc).or
        (firstFiringEntry context row_a row_b rules compare_fields ch col) := by
  intro rules
  induction rules with
  | nil =>
    intro acc res col h
    simp only [computeOutputColumnsAux, Except.ok.injEq] at h
    subst h
    simp [firstFiringEntry]
  | cons rule rest ih =>
    intro acc res col h
    simp only [computeOutputColumnsAux] at h
    by_cases hskip : rule.rule_type = "ROW_MATCH" ∨
        rule.rule_type = "FORMULA_RULE"
    · rw [if_pos hskip] at h
      rw [ih acc res col h]
      have hffe : firstFiringEntry context row_a row_b (rule :: rest)
          compare_fields ch col =
          firstFiringEntry context row_a row_b rest compare_fields ch col := by
        simp [firstFiringEntry, List.findSome?_cons, if_pos hskip]
      rw [hffe]
    · rw [if_neg hskip] at h
      cases hl : List.lookup (ruleColName rule) acc with
      | some v =>
        rw [hl] at h
        rw [ih acc res col h]
        by_cases hcol : ruleColName rule = col
        · rw [hcol] at hl
          rw [hl]
          simp [Option.or]
        · have hffe : firstFiringEntry context row_a row_b (rule :: rest)
              compare_fields ch col =
              firstFiringEntry context row_a row_b rest compare_fields ch col := by
            simp [firstFiringEntry, List.findSome?_cons, if_neg hskip, hcol]
          rw [hffe]
      | none =>
        rw [hl] at h
        cases heval : evaluate_rule rule row_a row_b context compare_fields ch with
        | error e =>
          rw [heval] at h
          exact absurd h (by simp)
        | ok o =>
          rw [heval] at h
          cases o with
          | none =>
            rw [ih acc res col h]
            have hffe : firstFiringEntry context row_a row_b (rule :: rest)
                compare_fields ch col =
                firstFiringEntry context row_a row_b rest compare_fields ch col := by
              simp [firstFiringEntry, List.findSome?_cons, if_neg hskip, heval]
            rw [hffe]
          | some entry =>
            rw [ih _ res col h, List.lookup_append]
            by_cases hcol : ruleColName rule = col
            · rw [hcol] at hl
              have hsingle : List.lookup col [(ruleColName rule, entry)] =
                  some entry := by
                rw [hcol]
                simp [List.lookup_cons]
              rw [hl, hsingle]
              have hffe : firstFiringEntry context row_a row_b (rule :: rest)
                  compare_fields ch col = some entry := by
                simp [firstFiringEntry, List.findSome?_cons, if_neg hskip,
                  hcol, heval]
              rw [hffe]
              simp [Option.or]
            · have hsingle : List.lookup col [(ruleColName rule, entry)] =
                  none := by
                have : (col == ruleColName rule) = false :=
                  beq_false_of_ne (fun hc => hcol hc.symm)
                simp [List.lookup_cons, this]
              rw [hsingle]
              have hffe : firstFiringEntry context row_a row_b (rule :: rest)
                  compare_fields ch col =
                  firstFiringEntry context row_a row_b rest compare_fields ch col := by
                simp [firstFiringEntry, List.findSome?_cons, if_neg hskip, hcol]
              rw [hffe, Option.or_none]

/-- C6: first-fires-wins per output column.  Each column of the computed
output dict is exactly the entry of the first rule in template order that
targets it and fires; later rules targeting the same column are ignored. -/
theorem c6_first_rule_wins_column (context : String)
    (row_a row_b : Option Row) (rules : List Rule)
    (compare_fields : List String) (ch : Option (List String))
    (res : List (String × OutEntry)) (col : String)
    (h : compute_output_columns context row_a row_b rules compare_fields ch =
      .ok res) :
    List.lookup col res =
      firstFiringEntry context row_a row_b rules compare_fields ch col := by
  have := computeOutputColumnsAux_lookup row_a row_b context compare_fields
    ch rules [] res col h
  simpa using this

/-- Witness for C6: with two PRESENCE rules competing for Remarks, the
computed column holds the first rule's label. -/
theorem c6_first_rule_wins_column_witness :
    List.lookup "Remarks" ccFirstWins =
      firstFiringEntry "addition" none (some rowId1)
        [presRuleFirst, presRuleSecond] [] none "Remarks" :=
  c6_first_rule_wins_column "addition" none (some rowId1)
    [presRuleFirst, presRuleSecond] [] none ccFirstWins "Remarks" (by decide)

/-- A nonempty intersection with the changed set is exactly a nonempty
containment filter. -/
theorem exists_mem_iff_filter_contains (l ch : List String) :
    (∃ f ∈ l, f ∈ ch) ↔ ¬((l.filter fun f => ch.contains f) = []) := by
  rw [List.filter_eq_nil_iff]
  push_neg
  simp [List.elem_iff]

/-- C9 counterexample: a validated CHANGE_RULE whose configured field list
is empty fires anyway — the `or compare_fields` fallback replaces the empty
list, so the rule fires off fields it was never configured to watch. -/
theorem c9_counterexample_empty_fields_fires :
    changeRuleEmptyFields.config.fields? = some [] ∧
    evaluate_rule changeRuleEmptyFields (some [("name", Value.vstr "x")])
        (some [("name", Value.vstr "y")]) "matched" ["name"]
        (some ["name"]) =
      .ok (some ("Changed", some "#FFEB9C")) := by
  decide

/-- C9 amended: a CHANGE_RULE never fires outside matched context; with a
nonempty configured field list it fires (with its configured label and
colour) iff that list intersects the precomputed changed set; an empty or
missing configured list falls back to `compare_fields`, making the rule
fire iff `compare_fields` intersects the changed set. -/
theorem c9_change_rule_semantics (rule : Rule) (row_a row_b : Option Row)
    (compare_fields : List String) (ch : List String)
    (hrt : rule.rule_type = "CHANGE_RULE") :
    (∀ ctx, ctx ≠ "matched" →
      evaluate_rule rule row_a row_b ctx compare_fields (some ch) = .ok none) ∧
    (∀ l, rule.config.fields? = some l → l ≠ [] →
      ((∃ f ∈ l, f ∈ ch) →
        evaluate_rule rule row_a row_b "matched" compare_fields (some ch) =
          .ok (some (rule.config.outcomeLabel?.getD "Changed",
            some (rule.config.color?.getD "#FFEB9C")))) ∧
      ((¬∃ f ∈ l, f ∈ ch) →
        evaluate_rule rule row_a row_b "matched" compare_fields (some ch) =
          .ok none)) ∧
    ((rule.config.fields? = some [] ∨ rule.config.fields? = none) →
      ((∃ f ∈ compare_fields, f ∈ ch) →
        evaluate_rule rule row_a row_b "matched" compare_fields (some ch) =
          .ok (some (rule.config.outcomeLabel?.getD "Changed",
            some (rule.config.color?.getD "#FFEB9C")))) ∧
      ((¬∃ f ∈ compare_fields, f ∈ ch) →
        evaluate_rule rule row_a row_b "matched" compare_fields (some ch) =
          .ok none)) := by
  have hnp : ¬(rule.rule_type = "PRESENCE_RULE") := by
    rw [hrt]; decide
  refine ⟨?_, ?_, ?_⟩
  · intro ctx hctx
    simp only [evaluate_rule, if_neg hnp, if_pos hrt, if_pos hctx]
  · intro l hl hne
    have hcf : changeRuleFields rule.config compare_fields = l := by
      simp [changeRuleFields, hl, List.isEmpty_iff, hne]
    constructor
    · intro hex
      have hfil := (exists_mem_iff_filter_contains l ch).mp hex
      simp only [evaluate_rule, if_neg hnp, if_pos hrt,
        if_neg (by simp : ¬("matched" ≠ "matched")), hcf]
      rw [if_pos (by simpa [List.isEmpty_iff] using hfil)]
    · intro hex
      have hfil : (l.filter fun f => ch.contains f) = [] := by
        by_contra hc
        exact hex ((exists_mem_iff_filter_contains l ch).mpr hc)
      simp only [evaluate_rule, if_neg hnp, if_pos hrt,
        if_neg (by simp : ¬("matched" ≠ "matched")), hcf]
      rw [if_neg (by rw [hfil]; decide)]
  · intro hl
    have hcf : changeRuleFields rule.config compare_fields = compare_fields := by
      rcases hl with hl | hl <;> simp [changeRuleFields, hl]
    constructor
    · intro hex
      have hfil := (exists_mem_iff_filter_contains compare_fields ch).mp hex
      simp only [evaluate_rule, if_neg hnp, if_pos hrt,
        if_neg (by simp : ¬("matched" ≠ "matched")), hcf]
      rw [if_pos (by simpa [List.isEmpty_iff] using hfil)]
    · intro hex
      have hfil : (compare_fields.filter fun f => ch.contains f) = [] := by
        by_contra hc
        exact hex ((exists_mem_iff_filter_contains compare_fields ch).mpr hc)
      simp only [evaluate_rule, if_neg hnp, if_pos hrt,
        if_neg (by simp : ¬("matched" ≠ "matched")), hcf]
      rw [if_neg (by rw [hfil]; decide)]

/-- Witness for C9: the configured-field rule fires on an intersecting
changed set. -/
theorem c9_change_rule_semantics_witness :
    evaluate_rule changeRuleName (some [("name", Value.vstr "x")])
        (some [("name", Value.vstr "y")]) "matched" ["name"]
        (some ["name"]) =
      .ok (some (changeRuleName.config.outcomeLabel?.getD "Changed",
        some (changeRuleName.config.color?.getD "#FFEB9C"))) :=
  ((c9_change_rule_semantics changeRuleName (some [("name", Value.vstr "x")])
      (some [("name", Value.vstr "y")]) ["name"] ["name"] rfl).2.1
    ["name"] rfl (by decide)).1 (by decide)

/-- A word or space character is not a brace. -/
theorem word_space_ne_brace {c : Char}
    (h : (isWordChar c || isWsChar c) = true) :
    c ≠ '\x7b' ∧ c ≠ '\x7d' := by
  constructor <;> rintro rfl <;> revert h <;> decide

/-- The scanner copies brace-free text verbatim. -/
theorem substGo_append_nobrace (repl : String → String) :
    ∀ (l rest : List Char), '\x7b' ∉ l →
      substGo repl (l ++ rest) none = l ++ substGo repl rest none := by
  intro l
  induction l with
  | nil => intro rest _; rfl
  | cons c l' ih =>
    intro rest hnb
    have hc : ¬(c = '\x7b') := fun hc => hnb (hc ▸ List.mem_cons_self c l')
    simp only [List.cons_append, substGo, if_neg hc, List.append_eq]
    rw [ih rest (fun hm => hnb (List.mem_cons_of_mem _ hm))]

/-- Scanning token characters followed by a closing brace invokes the
replacement on the collected token. -/
theorem substGo_token (repl : String → String) :
    ∀ (cs : List Char) (rest : List Char) (a : Char) (acc : List Char),
      (∀ x ∈ cs, (isWordChar x || isWsChar x) = true) →
      substGo repl (cs ++ '\x7d' :: rest) (some (a :: acc)) =
        (repl (String.mk (a :: (acc ++ cs)))).data ++ substGo repl rest none := by
  intro cs
  induction cs with
  | nil =>
    intro rest a acc _
    simp [substGo]
  | cons c cs' ih =>
    intro rest a acc hall
    have hc := hall c (List.mem_cons_self c cs')
    obtain ⟨-, hne⟩ := word_space_ne_brace hc
    simp only [List.cons_append, substGo, if_neg hne, if_pos hc,
      List.append_eq, List.cons_append]
    rw [ih rest a (acc ++ [c])
      (fun x hx => hall x (List.mem_cons_of_mem _ hx))]
    simp [List.append_assoc]

/-- C8 counterexample: `resolve_outcome_label` substitutes the raw
stringified value, not the comparison normalization: for Name = "  x  "
the placeholder resolves to "  x  " while the normalized substitution the
claim describes would produce "x". -/
theorem c8_counterexample_raw_not_normalized :
    resolve_outcome_label "\x7bName\x7d" rowName = "  x  " ∧
    resolveLabelNormalized "\x7bName\x7d" rowName = "x" ∧
    resolve_outcome_label "\x7bName\x7d" rowName ≠
      resolveLabelNormalized "\x7bName\x7d" rowName := by
  decide

/-- C8 amended: `resolve_outcome_label` substitutes each well-formed
placeholder with the record's **raw** stringified value (null → empty,
absent → empty) and leaves brace-free text literal. -/
theorem c8_resolve_substitutes_raw (row : Row) :
    (∀ p : String, '\x7b' ∉ p.data → resolve_outcome_label p row = p) ∧
    (∀ p f s : String, '\x7b' ∉ p.data → validToken f = true →
      resolve_outcome_label (p ++ "\x7b" ++ f ++ "\x7d" ++ s) row =
        p ++ replacerLookup row f ++ resolve_outcome_label s row) := by
  constructor
  · intro p hp
    apply String.ext
    show substGo (replacerLookup row) p.data none = p.data
    have := substGo_append_nobrace (replacerLookup row) p.data [] hp
    simpa [substGo] using this
  · intro p f s hp hf
    apply String.ext
    have hdata : (p ++ "\x7b" ++ f ++ "\x7d" ++ s).data =
        p.data ++ ('\x7b' :: (f.data ++ ('\x7d' :: s.data))) := by
      simp [String.data_append]
    show substGo (replacerLookup row)
      (p ++ "\x7b" ++ f ++ "\x7d" ++ s).data none = _
    rw [hdata, substGo_append_nobrace _ _ _ hp]
    cases hfd : f.data with
    | nil => simp [validToken, hfd] at hf
    | cons c cs =>
      have hf' : (isWordChar c &&
          cs.all fun x => (isWordChar x || isWsChar x)) = true := by
        simpa [validToken, hfd] using hf
      obtain ⟨hw, hall⟩ := Bool.and_eq_true _ _ |>.mp hf'
      show p.data ++ substGo (replacerLookup row)
        ('\x7b' :: (c :: cs ++ '\x7d' :: s.data)) none = _
      simp only [substGo, if_pos rfl, if_pos hw, List.cons_append,
        List.append_eq, eq_self_iff_true, if_true]
      rw [substGo_token _ cs s.data c []
        (fun x hx => List.all_eq_true.mp hall x hx)]
      have hmk : String.mk (c :: ([] ++ cs)) = f := by
        apply String.ext
        simp [hfd]
      rw [hmk]
      simp [String.data_append, resolve_outcome_label]

/-- Witness for C8: concrete template around a placeholder resolves to
literal prefix, raw value, resolved suffix. -/
theorem c8_resolve_substitutes_raw_witness :
    resolve_outcome_label ("Hello " ++ "\x7b" ++ "Name" ++ "\x7d" ++ "!")
        rowName =
      "Hello " ++ replacerLookup rowName "Name" ++
        resolve_outcome_label "!" rowName :=
  (c8_resolve_substitutes_raw rowName).2 "Hello " "Name" "!"
    (by decide) (by decide)

/-- Elements of a successful `efilterMapM` run come from a successful,
non-skipping body call. -/
theorem efilterMapM_mem {α β : Type} (f : α → Except String (Option β)) :
    ∀ (l : List α) (res : List β), efilterMapM f l = .ok res →
      ∀ r ∈ res, ∃ x ∈ l, f x = .ok (some r) := by
  intro l
  induction l with
  | nil =>
    intro res h r hr
    simp only [efilterMapM, Except.ok.injEq] at h
    subst h
    simp at hr
  | cons x xs ih =>
    intro res h r hr
    simp only [efilterMapM] at h
    cases hf : f x with
    | error e => rw [hf] at h; exact absurd h (by simp)
    | ok o =>
      rw [hf] at h
      cases o with
      | none =>
        obtain ⟨y, hy, hfy⟩ := ih res h r hr
        exact ⟨y, List.mem_cons_of_mem _ hy, hfy⟩
      | some v =>
        cases hrest : efilterMapM f xs with
        | error e => rw [hrest] at h; exact absurd h (by simp)
        | ok ys =>
          rw [hrest] at h
          simp only [Except.ok.injEq] at h
          subst h
          rcases List.mem_cons.mp hr with rfl | hr'
          · exact ⟨x, List.mem_cons_self x xs, hf⟩
          · obtain ⟨y, hy, hfy⟩ := ih ys hrest r hr'
            exact ⟨y, List.mem_cons_of_mem _ hy, hfy⟩

/-- Elements of a successful `emapM` run come from a successful body call. -/
theorem emapM_mem {α β : Type} (f : α → Except String β) :
    ∀ (l : List α) (res : List β), emapM f l = .ok res →
      ∀ r ∈ res, ∃ x ∈ l, f x = .ok r := by
  intro l
  induction l with
  | nil =>
    intro res h r hr
    simp only [emapM, Except.ok.injEq] at h
    subst h
    simp at hr
  | cons x xs ih =>
    intro res h r hr
    simp only [emapM] at h
    cases hf : f x with
    | error e => rw [hf] at h; exact absurd h (by simp)
    | ok v =>
      rw [hf] at h
      cases hrest : emapM f xs with
      | error e => rw [hrest] at h; exact absurd h (by simp)
      | ok ys =>
        rw [hrest] at h
        simp only [Except.ok.injEq] at h
        subst h
        rcases List.mem_cons.mp hr with rfl | hr'
        · exact ⟨x, List.mem_cons_self x xs, hf⟩
        · obtain ⟨y, hy, hfy⟩ := ih ys hrest r hr'
          exact ⟨y, List.mem_cons_of_mem _ hy, hfy⟩

/-- The Remarks invariant of a produced diff row: its `output_columns`
carries a Remarks entry that either came out of rule evaluation or is the
synthesized default for the row's source and changed set. -/
def remarksInvariant (tmpl : ComparisonTemplate) (r : DiffRow) : Prop :=
  ∃ e, List.lookup "Remarks" r.output_columns = some e ∧
    ((∃ ctx ra rb ch oc,
        compute_output_columns ctx ra rb tmpl.rules
          tmpl.column_mapping.compare_fields ch = .ok oc ∧
        List.lookup "Remarks" oc = some e) ∨
      e = defaultRemark r.source r.changed_fields)

/-- Rows emitted by the addition loop satisfy the Remarks invariant. -/
theorem processAddition_remarks (tmpl : ComparisonTemplate)
    (rows_b : List Row) (j : Nat) (r : DiffRow)
    (h : processAddition tmpl rows_b j = .ok (some r)) :
    remarksInvariant tmpl r := by
  simp only [processAddition] at h
  split at h
  · exact absurd h (by simp)
  · rename_i oc hcc
    split at h
    · exact absurd h (by simp)
    · have hr := Option.some.inj (Except.ok.inj h)
      subst hr
      cases hlk : List.lookup "Remarks" oc with
      | some e =>
        refine ⟨e, ?_, Or.inl ⟨"addition", none, some (rows_b.getD j []),
          none, oc, hcc, hlk⟩⟩
        simp [hlk]
      | none =>
        refine ⟨("Addition", some "#C6EFCE"), ?_, Or.inr ?_⟩
        · simp [hlk, List.lookup_append]
        · simp [defaultRemark]

/-- Rows emitted by the deletion loop satisfy the Remarks invariant. -/
theorem processDeletion_remarks (tmpl : ComparisonTemplate)
    (rows_a : List Row) (i : Nat) (r : DiffRow)
    (h : processDeletion tmpl rows_a i = .ok (some r)) :
    remarksInvariant tmpl r := by
  simp only [processDeletion] at h
  split at h
  · exact absurd h (by simp)
  · rename_i oc hcc
    split at h
    · exact absurd h (by simp)
    · have hr := Option.some.inj (Except.ok.inj h)
      subst hr
      cases hlk : List.lookup "Remarks" oc with
      | some e =>
        refine ⟨e, ?_, Or.inl ⟨"deletion", some (rows_a.getD i []), none,
          none, oc, hcc, hlk⟩⟩
        simp [hlk]
      | none =>
        refine ⟨("Deletion", some "#FFC7CE"), ?_, Or.inr ?_⟩
        · simp [hlk, List.lookup_append]
        · simp [defaultRemark]

/-- Rows emitted by the matched loop satisfy the Remarks invariant. -/
theorem processMatched_remarks (tmpl : ComparisonTemplate)
    (rows_a rows_b : List Row) (p : Nat × Nat) (r : DiffRow)
    (h : processMatched tmpl rows_a rows_b p = .ok r) :
    remarksInvariant tmpl r := by
  simp only [processMatched] at h
  split at h
  · exact absurd h (by simp)
  · rename_i oc hcc
    have hr := Except.ok.inj h
    subst hr
    cases hlk : List.lookup "Remarks" oc with
    | some e =>
      refine ⟨e, ?_, Or.inl ⟨"matched", some (rows_a.getD p.1 []),
        some (rows_b.getD p.2 []),
        some (fields_changed (rows_a.getD p.1 []) (rows_b.getD p.2 [])
          tmpl.column_mapping.compare_fields), oc, hcc, hlk⟩⟩
      simp [hlk]
    | none =>
      by_cases hch : (!(fields_changed (rows_a.getD p.1 []) (rows_b.getD p.2 [])
          tmpl.column_mapping.compare_fields).isEmpty) = true
      · have hch' : fields_changed (rows_a.getD p.1 []) (rows_b.getD p.2 [])
            tmpl.column_mapping.compare_fields ≠ [] := by
          simpa [List.isEmpty_iff] using hch
        rw [List.getD_eq_getElem?_getD, List.getD_eq_getElem?_getD] at hch'
        refine ⟨("Changed", some "#FFEB9C"), ?_, Or.inr ?_⟩
        · simp [hlk, hch', List.lookup_append]
        · simp only [defaultRemark]
          rw [if_neg (by decide : ¬("matched" = "B")),
            if_neg (by decide : ¬("matched" = "A")), if_pos hch]
      · have hch' : fields_changed (rows_a.getD p.1 []) (rows_b.getD p.2 [])
            tmpl.column_mapping.compare_fields = [] := by
          simpa [List.isEmpty_iff] using hch
        rw [List.getD_eq_getElem?_getD, List.getD_eq_getElem?_getD] at hch'
        refine ⟨("", none), ?_, Or.inr ?_⟩
        · simp [hlk, hch', List.lookup_append]
        · simp only [defaultRemark]
          rw [if_neg (by decide : ¬("matched" = "B")),
            if_neg (by decide : ¬("matched" = "A")), if_neg hch]

/-- C7: every row emitted by `execute_template` carries a Remarks entry in
its `output_columns`; when no rule produced one it is the synthesized
default — "Addition" for source B, "Deletion" for source A, "Changed" for
matched rows with changes, the empty label otherwise. -/
theorem c7_remarks_always_present (tmpl : ComparisonTemplate)
    (rows_a rows_b : List Row) (res : ExecResult)
    (h : execute_template tmpl rows_a rows_b = .ok res) :
    ∀ r ∈ res.rows, remarksInvariant tmpl r := by
  intro r hr
  simp only [execute_template] at h
  split at h
  · exact absurd h (by simp)
  · rename_i quad heq
    split at h
    · exact absurd h (by simp)
    · rename_i rowsB heqB
      split at h
      · exact absurd h (by simp)
      · rename_i rowsA heqA
        split at h
        · exact absurd h (by simp)
        · rename_i rowsM heqM
          have hres := Except.ok.inj h
          subst hres
          simp only [List.mem_append] at hr
          rcases hr with (hr | hr) | hr
          · obtain ⟨j, -, hj⟩ := efilterMapM_mem _ _ _ heqB r hr
            exact processAddition_remarks tmpl rows_b j r hj
          · obtain ⟨i, -, hi⟩ := efilterMapM_mem _ _ _ heqA r hr
            exact processDeletion_remarks tmpl rows_a i r hi
          · obtain ⟨p, -, hp⟩ := emapM_mem _ _ _ heqM r hr
            exact processMatched_remarks tmpl rows_a rows_b p r hp

/-- Witness for C7: the Remarks invariant at a concrete emitted row. -/
theorem c7_remarks_always_present_witness :
    remarksInvariant tmplSimple diffRowAdd :=
  c7_remarks_always_present tmplSimple [] [rowId1] execResAdd
    (by decide) diffRowAdd (by decide)

end ExcelTrans
